import Mathlib

set_option maxRecDepth 16384

/-!
Verification of the basebase runtime-schema service: a shallow embedding of
the type registry, the GraphQL schema generator, the generic document
resolvers and the rule-based authorization engine, together with theorems
about the behaviour of the embedded operations.

Documents and principals are modelled as JavaScript-style open objects:
association lists of string keys and values, where a later binding for the
same key overrides an earlier one (matching object-spread semantics).
MongoDB ObjectId values are modelled as tagged strings.
-/

/-- Values stored in documents, rule conditions and GraphQL inputs.
`oid` models a MongoDB ObjectId (tagged identifier string); `objV` a nested
plain object; `undef` the JavaScript undefined value. -/
inductive Val where
  | str (s : String)
  | oid (s : String)
  | num (n : Int)
  | boolV (b : Bool)
  | date (t : Nat)
  | nullV
  | undef
  | arr (elems : List Val)
  | objV (fields : List (String × Val))

mutual

/-- Structural equality of values (used for MongoDB query matching). -/
def valBeq : Val → Val → Bool
  | .str a, .str b => a == b
  | .oid a, .oid b => a == b
  | .num a, .num b => a == b
  | .boolV a, .boolV b => a == b
  | .date a, .date b => a == b
  | .nullV, .nullV => true
  | .undef, .undef => true
  | .arr a, .arr b => valListBeq a b
  | .objV a, .objV b => valFieldsBeq a b
  | _, _ => false

/-- Elementwise equality of value lists. -/
def valListBeq : List Val → List Val → Bool
  | [], [] => true
  | a :: as, b :: bs => valBeq a b && valListBeq as bs
  | _, _ => false

/-- Elementwise equality of keyed field lists. -/
def valFieldsBeq : List (String × Val) → List (String × Val) → Bool
  | [], [] => true
  | (k1, v1) :: as, (k2, v2) :: bs => k1 == k2 && valBeq v1 v2 && valFieldsBeq as bs
  | _, _ => false

end

instance : BEq Val := ⟨valBeq⟩

/-- A JavaScript-style open object: string keys with values, later bindings
overriding earlier ones. -/
abbrev Obj := List (String × Val)

/-- Key lookup with later-binding-wins semantics, matching the result of
building a JavaScript object from the bindings in order. -/
def objGet : Obj → String → Option Val
  | [], _ => none
  | (k1, v) :: rest, k =>
    match objGet rest k with
    | some w => some w
    | none => if k1 == k then some v else none

/-- Key-presence check (the JavaScript `in` operator). -/
def objHasKey (o : Obj) (k : String) : Bool :=
  o.any (fun p => p.1 == k)

/-- Rest-destructuring that drops one key (`const \x7b k, ...rest \x7d = o`). -/
def objRemoveKey : Obj → String → Obj
  | [], _ => []
  | (k1, v1) :: rest, k =>
    if k1 == k then objRemoveKey rest k else (k1, v1) :: objRemoveKey rest k

/-- Assignment to an existing key (`o[k] = v`): replaces the value in place.
Callers guard on key presence, matching the source. -/
def objSet : Obj → String → Val → Obj
  | [], _, _ => []
  | (k1, v1) :: rest, k, v =>
    (if k1 == k then (k1, v) else (k1, v1)) :: objSet rest k v

/-- Assignment that adds the key when absent (MongoDB `$set` semantics). -/
def objSetOrAdd (o : Obj) (k : String) (v : Val) : Obj :=
  if objHasKey o k then objSet o k v else o ++ [(k, v)]

/-- JavaScript truthiness of an optional value (undefined and missing keys
are falsy, as are the empty string, zero, null and false). -/
def truthy : Option Val → Bool
  | none => false
  | some (.undef) => false
  | some (.nullV) => false
  | some (.str s) => !(s == "")
  | some (.num n) => !(n == 0)
  | some (.boolV b) => b
  | some (.date _) => true
  | some (.oid _) => true
  | some (.arr _) => true
  | some (.objV _) => true

/-- The result of calling `.toString()` on a value in identifier-comparison
contexts; ObjectBoxes stringify to their identifier text. -/
def valIdStr : Val → String
  | .str s => s
  | .oid s => s
  | .num n => toString n
  | .boolV b => toString b
  | .date t => toString t
  | .nullV => "null"
  | .undef => "undefined"
  | .arr _ => ""
  | .objV _ => "[object Object]"

/-- JavaScript `a || b` over optional identifier strings: the empty string
and undefined are falsy and fall through to the right operand. -/
def jsOr (a b : Option String) : Option String :=
  match a with
  | some s => if s == "" then b else some s
  | none => b

/-- The document store: a map from collection name to its list of documents. -/
abbrev Db := List (String × List Obj)

/-- Read a collection (an unknown collection reads as empty). -/
def dbColl (db : Db) (name : String) : List Obj :=
  (((db.find? (fun c => c.1 == name))).map (fun c => c.2)).getD []

/-- Removal of a collection entry by name. -/
def dbRemoveColl : Db → String → Db
  | [], _ => []
  | (cn, cd) :: rest, name =>
    if cn == name then dbRemoveColl rest name else (cn, cd) :: dbRemoveColl rest name

/-- Replace the contents of a collection, creating it when absent. -/
def dbSetColl (db : Db) (name : String) (docs : List Obj) : Db :=
  (name, docs) :: dbRemoveColl db name

/-- The `new ObjectId(v)` coercion on identifier-string or ObjectId inputs. -/
def oidOfVal : Val → Val
  | .str s => .oid s
  | .oid s => .oid s
  | v => v

/-- Hexadecimal digit test, for ObjectId validity. -/
def isHexChar (c : Char) : Bool :=
  c.isDigit || (c ≥ 'a' && c ≤ 'f') || (c ≥ 'A' && c ≤ 'F')

/-- A 24-character hexadecimal string, the textual form of an ObjectId. -/
def looksLikeObjectId (s : String) : Bool :=
  s.length == 24 && s.data.all isHexChar

/-- The driver check `ObjectId.isValid(v)`. -/
def oidIsValid : Val → Bool
  | .oid _ => true
  | .str s => looksLikeObjectId s
  | _ => false

/-- Matching of a document against the query `\x7b _id: new ObjectId(id) \x7d`:
the stored native identifier is an ObjectId with the given text. -/
def idMatches (d : Obj) (id : String) : Bool :=
  match objGet d "_id" with
  | some (.oid s) => s == id
  | _ => false

/-- MongoDB `findOne(\x7b _id: new ObjectId(id) \x7d)` over a collection. -/
def findOneById (coll : List Obj) (id : String) : Option Obj :=
  coll.find? (fun d => idMatches d id)

/-- Equality-by-equality matching of a MongoDB filter document. -/
def mongoMatch (q : Obj) (d : Obj) : Bool :=
  q.all (fun kv => objGet d kv.1 == some kv.2)

/-- Character-list test that the pattern matches at the head of the text. -/
def listLeadEq : List Char → List Char → Bool
  | [], _ => true
  | _ :: _, [] => false
  | p :: ps, c :: cs => p == c && listLeadEq ps cs

/-- Occurrence test for a pattern anywhere in a character list. -/
def occursIn (pat : List Char) : List Char → Bool
  | [] => listLeadEq pat []
  | c :: rest => listLeadEq pat (c :: rest) || occursIn pat rest

/-- Substring test on strings. -/
def strOccurs (pat s : String) : Bool :=
  occursIn pat.data s.data

/-- Global replacement of a fixed nonempty pattern, matching a
`String.prototype.replace` call with a global regex: scans left to right
and continues after each replacement. The fuel argument only bounds the
recursion; callers pass the text length, which every step stays within
because each step consumes at least one character. -/
def replaceChars (pat rep : List Char) : Nat → List Char → List Char
  | _, [] => []
  | 0, s => s
  | fuel + 1, c :: rest =>
    if listLeadEq pat (c :: rest) && !pat.isEmpty then
      rep ++ replaceChars pat rep fuel (rest.drop (pat.length - 1))
    else
      c :: replaceChars pat rep fuel rest

/-- String-level global replace. -/
def jsReplaceAll (s pat rep : String) : String :=
  ⟨replaceChars pat.data rep.data s.data.length s.data⟩

/-- Lower-casing of a name (`.toLowerCase()`), characterwise. -/
def jsToLower (s : String) : String :=
  ⟨s.data.map Char.toLower⟩

/-- Suffix test (`.endsWith(suffix)`), by comparing reversed characters. -/
def jsEndsWith (s suffix : String) : Bool :=
  listLeadEq suffix.data.reverse s.data.reverse

/-- The GraphQL scalar type names. -/
def scalarTypeNames : List String :=
  ["ID", "String", "Int", "Float", "Boolean", "JSON", "Date"]

/-- Scalar test from graphqlTypes. -/
def isScalarType (t : String) : Bool :=
  scalarTypeNames.contains t

/-- Custom-type (reference) test from graphqlTypes. -/
def isCustomType (t : String) : Bool :=
  !isScalarType t

/-- The four reserved field names every compiled type receives automatically. -/
def RESERVED_FIELD_NAMES : List String :=
  ["id", "creator", "createdAt", "updatedAt"]

/-- A field definition as stored in the type registry. -/
structure GraphQLField where
  name : String
  type : String
  description : Option String := none
  isList : Bool := false
  isRequired : Bool := false
  isListItemRequired : Bool := false
  unique : Bool := false

/-- A type definition as stored in the type registry. -/
structure GraphQLTypeDefinition where
  name : String
  description : Option String := none
  fields : List GraphQLField

/-- Capitalization of the first character
(`s.charAt(0).toUpperCase() + s.slice(1)`). -/
def capitalizeFirst (s : String) : String :=
  match s.data with
  | [] => ""
  | c :: rest => ⟨c.toUpper :: rest⟩

/-- The textual singularization used by the first-iteration generator:
drop one trailing letter s when present. -/
def jsSingular (s : String) : String :=
  if jsEndsWith s "s" then s.dropRight 1 else s

/-- The authentication-failure message thrown by every guarded resolver. -/
def authRequiredMsg : String := "Authentication required"

namespace TypeRegistry

/-- Error message for a field using a reserved name (services/auth.ts and
index.ts use the same text). -/
def reservedFieldError (name : String) : String :=
  "Field name \"" ++ name ++ "\" is reserved and automatically added to all types"

/-- The validation-errors wrapper message thrown by createType. -/
def validationErrorsMsg (errors : List String) : String :=
  "Validation errors: " ++ String.intercalate ", " errors

/-- GraphQLTypeManager.validateNoReservedFields: one error per field whose
name is reserved, in field order. -/
def validateNoReservedFields (fields : List GraphQLField) : List String :=
  (fields.filter (fun f => RESERVED_FIELD_NAMES.contains f.name)).map
    (fun f => reservedFieldError f.name)

/-- GraphQLTypeManager.validateFieldReferences: returns the reserved-name
errors (the registry iteration cited by the claims performs no further
reference checks in this method). -/
def validateFieldReferences (fields : List GraphQLField) : List String :=
  validateNoReservedFields fields

/-- Registry state: the stored type definitions together with the unique
indexes that have been created, as (collection name, field name) pairs. -/
structure RegistryState where
  types : List GraphQLTypeDefinition
  uniqueIndexes : List (String × String)

/-- GraphQLTypeManager.addGraphQLType: persists the type, then creates a
unique index on `type.name.toLowerCase()` for every field flagged unique.
Note the index collection name is the bare lower-cased type name, with no
trailing letter s. -/
def addGraphQLType (st : RegistryState) (t : GraphQLTypeDefinition) : RegistryState :=
  let collectionName := jsToLower t.name
  let uniqueFields := t.fields.filter (fun f => f.unique)
  { types := st.types ++ [t],
    uniqueIndexes := st.uniqueIndexes ++ uniqueFields.map (fun f => (collectionName, f.name)) }

/-- The createType mutation resolver from index.ts: authentication check,
explicit id and creator reserved-name checks, validateFieldReferences
(which reports every reserved field name), then addGraphQLType. Returns
the updated registry state together with the thrown error or result. -/
def createType (st : RegistryState) (currentUser : Option Obj)
    (input : GraphQLTypeDefinition) : RegistryState × Except String Bool :=
  if currentUser.isNone then
    (st, .error authRequiredMsg)
  else if (input.fields.find? (fun f => f.name == "id")).isSome then
    (st, .error (reservedFieldError "id"))
  else if (input.fields.find? (fun f => f.name == "creator")).isSome then
    (st, .error (reservedFieldError "creator"))
  else
    let errors := validateFieldReferences input.fields
    if errors.length > 0 then
      (st, .error (validationErrorsMsg errors))
    else
      (addGraphQLType st input, .ok true)

end TypeRegistry

namespace SchemaGen

/-- Collection name used by every generated resolver:
`type.name.toLowerCase() + "s"`. -/
def crudCollectionName (typeName : String) : String :=
  jsToLower typeName ++ "s"

/-- The two query fields generated for one type by generateQueryType: a
get-by-id query with a single required id argument, and a get-all query
with an open JSON filter argument. -/
def queryFieldsFor (t : GraphQLTypeDefinition) : List String :=
  [ "\"\"\"Get a single " ++ t.name ++ " by ID\"\"\"\n  get" ++ t.name
      ++ "(id: ID!): " ++ t.name,
    "\"\"\"Get all " ++ t.name ++ "s, optionally filtered\"\"\"\n  get" ++ t.name
      ++ "s(filter: JSON): [" ++ t.name ++ "!]!" ]

/-- generateQueryType: the SDL of the Query type. -/
def generateQueryType (types : List GraphQLTypeDefinition) : String :=
  let queries := String.intercalate "\n\n  " (types.map queryFieldsFor).flatten
  "type Query \x7b\n  " ++ queries ++ "\n\x7d"

/-- The mutation fields generated for one type by generateMutationType:
create, update, delete, plus for every non-reserved list field a pair of
convenience mutations whose names capitalize the field name as-is and
whose item parameter is always named itemId. -/
def mutationFieldsFor (t : GraphQLTypeDefinition) : List String :=
  let typeName := t.name
  let baseFields :=
    [ "\"\"\"Create a new " ++ typeName ++ "\"\"\"\n  create" ++ typeName
        ++ "(input: " ++ typeName ++ "Input!): " ++ typeName ++ "!",
      "\"\"\"Update an existing " ++ typeName ++ "\"\"\"\n  update" ++ typeName
        ++ "(id: ID!, input: " ++ typeName ++ "Input!): " ++ typeName ++ "!",
      "\"\"\"Delete a " ++ typeName ++ "\"\"\"\n  delete" ++ typeName
        ++ "(id: ID!): Boolean!" ]
  let arrayFields :=
    ((t.fields.filter
        (fun f => f.isList && !(RESERVED_FIELD_NAMES.contains f.name))).map
      (fun f =>
        let fieldNameCapitalized := capitalizeFirst f.name
        [ "\"\"\"Add an item to " ++ typeName ++ "." ++ f.name ++ "\"\"\"\n  add"
            ++ typeName ++ fieldNameCapitalized ++ "(id: ID!, itemId: ID!): "
            ++ typeName ++ "!",
          "\"\"\"Remove an item from " ++ typeName ++ "." ++ f.name ++ "\"\"\"\n  remove"
            ++ typeName ++ fieldNameCapitalized ++ "(id: ID!, itemId: ID!): "
            ++ typeName ++ "!" ])).flatten
  baseFields ++ arrayFields

/-- generateMutationType: the SDL of the Mutation type. -/
def generateMutationType (types : List GraphQLTypeDefinition) : String :=
  let mutations := String.intercalate "\n\n  " (types.map mutationFieldsFor).flatten
  "type Mutation \x7b\n  " ++ mutations ++ "\n\x7d"

/-- The generated get-by-id resolver: a plain findOne on the collection by
ObjectId; it inspects no other argument and raises nothing. -/
def getResolver (t : GraphQLTypeDefinition) (id : String) (db : Db) : Option Obj :=
  findOneById (dbColl db (crudCollectionName t.name)) id

/-- The filter preprocessing of the generated get-all resolver: a truthy
value under the key `_id` or a key ending in `Id` is coerced to an
ObjectId; every other entry passes through verbatim. -/
def buildGetAllQuery (filter : Obj) : Obj :=
  filter.foldl
    (fun acc kv =>
      if truthy (some kv.2) && (kv.1 == "_id" || jsEndsWith kv.1 "Id") then
        acc ++ [(kv.1, oidOfVal kv.2)]
      else
        acc ++ [(kv.1, kv.2)])
    []

/-- The generated get-all resolver: find with the preprocessed filter. -/
def getAllResolver (t : GraphQLTypeDefinition) (filter : Obj) (db : Db) : List Obj :=
  (dbColl db (crudCollectionName t.name)).filter (mongoMatch (buildGetAllQuery filter))

/-- Array test for the `Array.isArray` branch of input processing. -/
def isArrVal : Val → Bool
  | .arr _ => true
  | _ => false

/-- Map ObjectId coercion over the elements of an array value. -/
def mapArrOids : Val → Val
  | .arr l => .arr (l.map oidOfVal)
  | v => v

/-- The input reduction of the generated create and update resolvers:
entries whose key is not a declared field of the type are dropped; entries
for reference-typed fields are coerced to ObjectId (respecting list
arity, and dropped when a single reference value is falsy); all other
entries pass through. This is one step of that reduce. -/
def processStep (t : GraphQLTypeDefinition) (acc : Obj) (kv : String × Val) : Obj :=
  match t.fields.find? (fun f => f.name == kv.1) with
  | none => acc
  | some f =>
    if f.type != "ID" && !(["String", "Int", "Float", "Boolean", "Date"].contains f.type) then
      if f.isList && isArrVal kv.2 then
        acc ++ [(kv.1, mapArrOids kv.2)]
      else if truthy (some kv.2) then
        acc ++ [(kv.1, oidOfVal kv.2)]
      else
        acc
    else
      acc ++ [(kv.1, kv.2)]

/-- The reduce over the input entries of the create and update resolvers. -/
def processCreateInput (t : GraphQLTypeDefinition) (input : Obj) : Obj :=
  input.foldl (processStep t) []

/-- The generated create resolver: requires authentication, processes the
input, then builds the stored document by spreading the processed input
and stamping creator (the principal, for every type), createdAt and
updatedAt with the current time; the store adds the generated `_id`.
Returns the updated store and the stored record. -/
def createResolver (t : GraphQLTypeDefinition) (currentUser : Option Obj)
    (now : Nat) (input : Obj) (newId : String) (db : Db) :
    Except String (Db × Obj) :=
  match currentUser with
  | none => .error authRequiredMsg
  | some u =>
    let processedInput := processCreateInput t input
    let doc : Obj := processedInput ++
      [("creator", oidOfVal ((objGet u "_id").getD .undef)),
       ("createdAt", .date now),
       ("updatedAt", .date now)]
    let coll := crudCollectionName t.name
    let stored := doc ++ [("_id", .oid newId)]
    .ok (dbSetColl db coll (dbColl db coll ++ [stored]), stored)

/-- The generated delete resolver: requires authentication, issues a
deleteOne by ObjectId and returns whether exactly one document was
removed. -/
def deleteResolver (t : GraphQLTypeDefinition) (currentUser : Option Obj)
    (id : String) (db : Db) : Except String (Db × Bool) :=
  match currentUser with
  | none => .error authRequiredMsg
  | some _ =>
    let coll := crudCollectionName t.name
    let docs := dbColl db coll
    let remaining := docs.eraseP (fun d => idMatches d id)
    let deletedCount := docs.length - remaining.length
    .ok (dbSetColl db coll remaining, deletedCount == 1)

end SchemaGen

namespace SchemaGenV1

/-- The convenience-mutation SDL fragment of the first-iteration generator:
the field name is singularized by dropping a trailing letter s, the
singular is capitalized into the operation name, and the item parameter is
named with the singular followed by Id. -/
def v1ArrayMutations (t : GraphQLTypeDefinition) : String :=
  String.intercalate "\n"
    ((t.fields.filter (fun f => f.isList)).map
      (fun f =>
        let singularFieldName := jsSingular f.name
        let parameterName := singularFieldName ++ "Id"
        "  add" ++ t.name ++ capitalizeFirst singularFieldName
          ++ "(id: ID!, " ++ parameterName ++ ": ID!): " ++ t.name
          ++ "\n  remove" ++ t.name ++ capitalizeFirst singularFieldName
          ++ "(id: ID!, " ++ parameterName ++ ": ID!): " ++ t.name))

end SchemaGenV1

namespace Part005

/-- One step of convertToObjectIds: for a declared field of a reference
type whose key is present in the data, coerce the value to ObjectId form,
mapping over arrays for list fields and skipping falsy single values. -/
def convertStep (converted : Obj) (f : GraphQLField) : Obj :=
  if objHasKey converted f.name && isCustomType f.type then
    match objGet converted f.name with
    | none => converted
    | some value =>
      if f.isList then
        match value with
        | .arr l => objSet converted f.name (.arr (l.map oidOfVal))
        | _ => converted
      else
        if truthy (some value) then objSet converted f.name (oidOfVal value)
        else converted
  else converted

/-- convertToObjectIds as the fold of convertStep over the declared fields. -/
def convertToObjectIds (data : Obj) (td : GraphQLTypeDefinition) : Obj :=
  td.fields.foldl convertStep data

/-- Shape of a populated referenced document: the id key first, then the
remaining fields with the native `_id` removed. -/
def refDocToVal (doc : Obj) : Val :=
  .objV ([("id", .str (valIdStr ((objGet doc "_id").getD .undef)))] ++ objRemoveKey doc "_id")

/-- One step of populateReferences for a single declared field: when the
key is present and the field type is a reference, replace stored
identifiers by the referenced documents read from the
lower-cased-plus-s collection of the field type. -/
def populateOne (db : Db) (populated : Obj) (f : GraphQLField) : Obj :=
  if objHasKey populated f.name && isCustomType f.type then
    let value := (objGet populated f.name).getD .undef
    let referencedCollection := jsToLower f.type ++ "s"
    if f.isList then
      match value with
      | .arr l =>
        if l.length > 0 then
          let objectIds := l.filter oidIsValid
          if objectIds.length > 0 then
            let referencedDocs := (dbColl db referencedCollection).filter
              (fun d => objectIds.any (fun x => objGet d "_id" == some x))
            objSet populated f.name (.arr (referencedDocs.map refDocToVal))
          else populated
        else populated
      | _ => populated
    else
      if truthy (some value) && oidIsValid value then
        match (dbColl db referencedCollection).find? (fun d => objGet d "_id" == some value) with
        | some referencedDoc => objSet populated f.name (refDocToVal referencedDoc)
        | none => populated
      else populated
  else populated

/-- populateReferences: fold populateOne over the declared fields. -/
def populateReferences (doc : Obj) (td : GraphQLTypeDefinition) (db : Db) : Obj :=
  td.fields.foldl (populateOne db) doc

/-- getDocument: requires authentication; findOne by ObjectId; on a hit,
replace `_id` by its string form under the key id and populate
references when a type definition is supplied. -/
def getDocument (collection : String) (id : String) (currentUser : Option Obj)
    (db : Db) (td : Option GraphQLTypeDefinition) : Except String (Option Obj) :=
  match currentUser with
  | none => .error authRequiredMsg
  | some _ =>
    match findOneById (dbColl db collection) id with
    | none => .ok none
    | some result =>
      let res1 : Obj := [("id", .str (valIdStr ((objGet result "_id").getD .undef)))]
        ++ objRemoveKey result "_id"
      match td with
      | some t => .ok (some (populateReferences res1 t db))
      | none => .ok (some res1)

/-- getDocuments: requires authentication; reads the whole collection and
applies the same id conversion and reference population per document. -/
def getDocuments (collection : String) (currentUser : Option Obj)
    (db : Db) (td : Option GraphQLTypeDefinition) : Except String (List Obj) :=
  match currentUser with
  | none => .error authRequiredMsg
  | some _ =>
    let docs := dbColl db collection
    let mapped := docs.map
      (fun doc => [("id", .str (valIdStr ((objGet doc "_id").getD .undef)))]
        ++ objRemoveKey doc "_id")
    match td with
    | some t => .ok (mapped.map (fun doc => populateReferences doc t db))
    | none => .ok mapped

/-- createDocument: requires authentication; strips client id and creator;
stamps creator with the principal except for the users collection;
coerces reference fields; inserts (the store adds `_id`). It stamps no
timestamps. Returns the updated store, the stored record and the value
returned to the caller. -/
def createDocument (collection : String) (data : Obj) (currentUser : Option Obj)
    (db : Db) (td : Option GraphQLTypeDefinition) (newId : String) :
    Except String (Db × Obj × Obj) :=
  match currentUser with
  | none => .error authRequiredMsg
  | some u =>
    let insertData := objRemoveKey (objRemoveKey data "id") "creator"
    let dataToInsert :=
      if collection == "users" then insertData
      else insertData ++ [("creator", oidOfVal ((objGet u "_id").getD .undef))]
    let convertedData :=
      match td with
      | some t => convertToObjectIds dataToInsert t
      | none => dataToInsert
    let stored := convertedData ++ [("_id", .oid newId)]
    let result : Obj := [("id", .str newId)] ++ insertData
      ++ (if collection == "users" then [] else [("creator", .objV u)])
    let result2 :=
      match td with
      | some t => populateReferences result t db
      | none => result
    .ok (dbSetColl db collection (dbColl db collection ++ [stored]), stored, result2)

/-- Replace the first document whose `_id` matches, leaving others as-is. -/
def replaceFirstById (coll : List Obj) (id : String) (newDoc : Obj) : List Obj :=
  match coll with
  | [] => []
  | d :: rest =>
    if idMatches d id then newDoc :: rest
    else d :: replaceFirstById rest id newDoc

/-- One `$set` entry application. -/
def applySetStep (d : Obj) (kv : String × Val) : Obj :=
  objSetOrAdd d kv.1 kv.2

/-- MongoDB `$set`: apply every update entry, replacing or adding keys. -/
def applySet (doc : Obj) (updates : Obj) : Obj :=
  updates.foldl applySetStep doc

/-- updateDocument: requires authentication; strips client id; coerces
reference fields; findOneAndUpdate with `$set` returning the updated
document; null when no document matched; otherwise the same id
conversion and reference population as the read path. -/
def updateDocument (collection : String) (id : String) (data : Obj)
    (currentUser : Option Obj) (db : Db) (td : Option GraphQLTypeDefinition) :
    Except String (Option Obj × Db) :=
  match currentUser with
  | none => .error authRequiredMsg
  | some _ =>
    let updateData := objRemoveKey data "id"
    let convertedData :=
      match td with
      | some t => convertToObjectIds updateData t
      | none => updateData
    match findOneById (dbColl db collection) id with
    | none => .ok (none, db)
    | some doc =>
      let updated := applySet doc convertedData
      let db2 := dbSetColl db collection (replaceFirstById (dbColl db collection) id updated)
      let res1 : Obj := [("id", .str (valIdStr ((objGet updated "_id").getD .undef)))]
        ++ objRemoveKey updated "_id"
      match td with
      | some t => .ok (some (populateReferences res1 t db), db2)
      | none => .ok (some res1, db2)

end Part005

namespace Authz

/-- An authorization rule as stored in the authorizationRules collection. -/
structure AuthorizationRule where
  name : String
  description : Option String := none
  action : String
  subject : String
  conditions : Obj := []
  inverted : Bool := false
  priority : Int
  isActive : Bool

/-- One registration in the built capability set: the can or cannot call
made for a rule, with its interpolated conditions. -/
structure AbilityReg where
  inverted : Bool
  action : String
  subject : String
  conditions : Obj

/-- Stringification of an optional principal attribute as it reaches the
regex-replace call: an absent attribute coerces to the text undefined. -/
def jsUndefStr : Option Val → String
  | none => "undefined"
  | some v => valIdStr v

/-- The template replaced from the principal identifier. -/
def idTemplate : String := "$\x7buser._id\x7d"

/-- The template replaced from the principal active-tenant attribute. -/
def appIdTemplate : String := "$\x7buser.currentAppId\x7d"

/-- The string interpolation of interpolateConditions: two global
replacements, for the identifier template then the tenant template. -/
def interpolateValue (s : String) (user : Obj) : String :=
  let s1 := jsReplaceAll s idTemplate (jsUndefStr (objGet user "_id"))
  jsReplaceAll s1 appIdTemplate (jsUndefStr (objGet user "currentAppId"))

mutual

/-- Interpolation of a single condition value: strings are template
replaced; nested objects and arrays recurse; other values pass through. -/
def interpolateVal (user : Obj) : Val → Val
  | .str s => .str (interpolateValue s user)
  | .objV o => .objV (interpolateFields user o)
  | .arr l => .arr (interpolateList user l)
  | v => v

/-- Interpolation of a keyed field list. -/
def interpolateFields (user : Obj) : List (String × Val) → List (String × Val)
  | [] => []
  | (k, v) :: rest => (k, interpolateVal user v) :: interpolateFields user rest

/-- Interpolation of an array of values. -/
def interpolateList (user : Obj) : List Val → List Val
  | [] => []
  | v :: rest => interpolateVal user v :: interpolateList user rest

end

/-- interpolateConditions over the rule conditions object. -/
def interpolateConditions (conditions : Obj) (user : Obj) : Obj :=
  interpolateFields user conditions

/-- Stable insertion keeping higher priorities first. -/
def insertByPriority (r : AuthorizationRule) :
    List AuthorizationRule → List AuthorizationRule
  | [] => [r]
  | x :: xs => if x.priority < r.priority then r :: x :: xs else x :: insertByPriority r xs

/-- Stable sort by descending priority. -/
def sortByPriorityDesc (rs : List AuthorizationRule) : List AuthorizationRule :=
  rs.foldr insertByPriority []

/-- getRules: the active rules in descending-priority order. -/
def getRules (rules : List AuthorizationRule) : List AuthorizationRule :=
  sortByPriorityDesc (rules.filter (fun r => r.isActive))

/-- buildDynamicAbilityForUser: an empty capability set for a null
principal; otherwise one can or cannot registration per active rule in
descending-priority order, with interpolated conditions. -/
def buildDynamicAbilityForUser (user : Option Obj)
    (rules : List AuthorizationRule) : List AbilityReg :=
  match user with
  | none => []
  | some u =>
    (getRules rules).map
      (fun r =>
        { inverted := r.inverted, action := r.action, subject := r.subject,
          conditions := interpolateConditions r.conditions u })

/-- Action matching of the capability library: manage grants every action. -/
def actionMatches (ruleAction queried : String) : Bool :=
  ruleAction == "manage" || ruleAction == queried

/-- Subject matching of the capability library: all grants every subject. -/
def subjectMatches (ruleSubject queried : String) : Bool :=
  ruleSubject == "all" || ruleSubject == queried

/-- The coarse subject-type check of the capability library: the most
recently registered rule relevant to the action/subject pair decides, a
cannot registration denying and a can registration granting; conditions
are not consulted when checking a subject type; no relevant registration
means denial. -/
def coarseCan (regs : List AbilityReg) (action subject : String) : Bool :=
  match regs.reverse.find?
      (fun r => actionMatches r.action action && subjectMatches r.subject subject) with
  | some r => !r.inverted
  | none => false

/-- The identifier resolution used by checkPermission:
`o._id?.toString() || o.id?.toString()`. -/
def resolveId (o : Obj) : Option String :=
  jsOr ((objGet o "_id").map valIdStr) ((objGet o "id").map valIdStr)

/-- checkPermission: coarse grant first; with no concrete resource or
principal the coarse grant decides; then the subject-specific ownership
predicates, then the tenant comparison fallback. -/
def checkPermission (ability : List AbilityReg) (action subject : String)
    (resource user : Option Obj) : Bool :=
  if !(coarseCan ability action subject) then false
  else
    match resource, user with
    | some r, some u =>
      if subject == "User" && (action == "update" || action == "delete" || action == "manage") then
        resolveId r == resolveId u
      else if subject == "App" && (action == "update" || action == "delete" || action == "manage") then
        ((objGet r "ownerId").map valIdStr) == resolveId u
      else if subject == "Post" && (action == "update" || action == "delete" || action == "manage") then
        (((objGet r "creator").map valIdStr) == resolveId u) &&
          (((objGet r "appId").map valIdStr) == ((objGet u "currentAppId").map valIdStr))
      else if truthy (objGet r "appId") && truthy (objGet u "currentAppId") then
        ((objGet r "appId").map valIdStr) == ((objGet u "currentAppId").map valIdStr)
      else true
    | _, _ => true

end Authz


section ObjLemmas

/-- Unfolding: a cons lookup when the tail already has the key. -/
theorem objGet_cons_some (k1 : String) (v1 : Val) (rest : Obj) (k : String) (w : Val)
    (h : objGet rest k = some w) : objGet ((k1, v1) :: rest) k = some w := by
  simp [objGet, h]

/-- Unfolding: a cons lookup when the tail lacks the key. -/
theorem objGet_cons_of_none (k1 : String) (v1 : Val) (rest : Obj) (k : String)
    (h : objGet rest k = none) :
    objGet ((k1, v1) :: rest) k = if k1 == k then some v1 else none := by
  simp [objGet, h]

/-- Appending wins on the right: a binding found in the suffix decides. -/
theorem objGet_append_right (a b : Obj) (k : String) (w : Val)
    (h : objGet b k = some w) : objGet (a ++ b) k = some w := by
  induction a with
  | nil => simpa using h
  | cons p rest ih =>
    obtain ⟨k1, v1⟩ := p
    rw [List.cons_append]
    exact objGet_cons_some k1 v1 (rest ++ b) k w ih

/-- With no binding in the suffix, lookup falls back to the prefix. -/
theorem objGet_append_left (a b : Obj) (k : String)
    (h : objGet b k = none) : objGet (a ++ b) k = objGet a k := by
  induction a with
  | nil => simpa using h
  | cons p rest ih =>
    obtain ⟨k1, v1⟩ := p
    rw [List.cons_append]
    cases hr : objGet rest k with
    | some w =>
      rw [objGet_cons_some k1 v1 (rest ++ b) k w (ih.trans hr),
        objGet_cons_some k1 v1 rest k w hr]
    | none =>
      rw [objGet_cons_of_none k1 v1 (rest ++ b) k (ih.trans hr),
        objGet_cons_of_none k1 v1 rest k hr]

/-- Lookup of a key just appended. -/
theorem objGet_snoc_self (a : Obj) (k : String) (v : Val) :
    objGet (a ++ [(k, v)]) k = some v :=
  objGet_append_right a [(k, v)] k v (by simp [objGet])

/-- Appending a different key leaves a lookup unchanged. -/
theorem objGet_snoc_ne (a : Obj) (k1 k : String) (v : Val) (h : ¬k1 = k) :
    objGet (a ++ [(k1, v)]) k = objGet a k :=
  objGet_append_left a [(k1, v)] k (by simp [objGet, h])

/-- Removing a key removes its binding. -/
theorem objGet_removeKey_self (o : Obj) (k : String) :
    objGet (objRemoveKey o k) k = none := by
  induction o with
  | nil => rfl
  | cons p rest ih =>
    obtain ⟨k1, v1⟩ := p
    by_cases hk : k1 = k
    · simpa [objRemoveKey, hk] using ih
    · have hk2 : (k1 == k) = false := by simpa using hk
      simp only [objRemoveKey, hk2, Bool.false_eq_true, if_false]
      rw [objGet_cons_of_none k1 v1 _ k ih]
      simp [hk2]

/-- Removing one key leaves other lookups unchanged. -/
theorem objGet_removeKey_ne (o : Obj) (k k2 : String) (h : ¬k2 = k) :
    objGet (objRemoveKey o k) k2 = objGet o k2 := by
  induction o with
  | nil => rfl
  | cons p rest ih =>
    obtain ⟨k1, v1⟩ := p
    by_cases hk : k1 = k
    · have hk1 : (k1 == k) = true := by simpa using hk
      have hk12 : (k1 == k2) = false := by
        simp only [beq_eq_false_iff_ne, ne_eq]
        intro hh
        exact h (hh ▸ hk)
      simp only [objRemoveKey, hk1, if_true]
      rw [ih]
      cases hr : objGet rest k2 with
      | some w => rw [objGet_cons_some k1 v1 rest k2 w hr]
      | none =>
        rw [objGet_cons_of_none k1 v1 rest k2 hr]
        simp [hk12]
    · have hk1 : (k1 == k) = false := by simpa using hk
      simp only [objRemoveKey, hk1, Bool.false_eq_true, if_false]
      cases hr : objGet rest k2 with
      | some w =>
        rw [objGet_cons_some k1 v1 (objRemoveKey rest k) k2 w (ih.trans hr),
          objGet_cons_some k1 v1 rest k2 w hr]
      | none =>
        rw [objGet_cons_of_none k1 v1 (objRemoveKey rest k) k2 (ih.trans hr),
          objGet_cons_of_none k1 v1 rest k2 hr]

end ObjLemmas

section ObjLemmas2

/-- In-place assignment of one key leaves other lookups unchanged. -/
theorem objGet_objSet_ne (o : Obj) (k k2 : String) (v : Val) (h : ¬k2 = k) :
    objGet (objSet o k v) k2 = objGet o k2 := by
  induction o with
  | nil => rfl
  | cons p rest ih =>
    obtain ⟨k1, v1⟩ := p
    have hpair : (if (k1 == k) = true then (k1, v) else (k1, v1)) =
        (k1, if (k1 == k) = true then v else v1) := by
      split <;> rfl
    simp only [objSet, hpair]
    cases hr : objGet rest k2 with
    | some w =>
      rw [objGet_cons_some k1 _ (objSet rest k v) k2 w (ih.trans hr),
        objGet_cons_some k1 v1 rest k2 w hr]
    | none =>
      rw [objGet_cons_of_none k1 _ (objSet rest k v) k2 (ih.trans hr),
        objGet_cons_of_none k1 v1 rest k2 hr]
      by_cases hk12 : k1 = k2
      · have hk1 : (k1 == k) = false := by
          simp only [beq_eq_false_iff_ne, ne_eq]
          intro hh
          exact h (hk12 ▸ hh)
        simp [hk1]
      · have : (k1 == k2) = false := by simpa using hk12
        simp [this]

/-- A lookup of none splits over a cons. -/
theorem objGet_cons_none (k1 : String) (v1 : Val) (rest : Obj) (k : String)
    (h : objGet ((k1, v1) :: rest) k = none) :
    objGet rest k = none ∧ (k1 == k) = false := by
  cases hr : objGet rest k with
  | some w => rw [objGet_cons_some k1 v1 rest k w hr] at h; exact absurd h (by simp)
  | none =>
    rw [objGet_cons_of_none k1 v1 rest k hr] at h
    refine ⟨rfl, ?_⟩
    by_cases hk : (k1 == k) = true
    · rw [hk] at h; simp at h
    · simpa using hk

/-- Assigning an absent key is a no-op. -/
theorem objSet_of_absent (o : Obj) (k : String) (v : Val)
    (h : objGet o k = none) : objSet o k v = o := by
  induction o with
  | nil => rfl
  | cons p rest ih =>
    obtain ⟨k1, v1⟩ := p
    obtain ⟨hrest, hk⟩ := objGet_cons_none k1 v1 rest k h
    simp [objSet, hk, ih hrest]

/-- Key presence agrees with lookup success. -/
theorem objHasKey_eq_isSome (o : Obj) (k : String) :
    objHasKey o k = (objGet o k).isSome := by
  induction o with
  | nil => rfl
  | cons p rest ih =>
    obtain ⟨k1, v1⟩ := p
    cases hr : objGet rest k with
    | some w =>
      rw [objGet_cons_some k1 v1 rest k w hr]
      have : objHasKey rest k = true := by rw [ih, hr]; rfl
      simp [objHasKey] at this ⊢
      exact Or.inr this
    | none =>
      rw [objGet_cons_of_none k1 v1 rest k hr]
      have : objHasKey rest k = false := by rw [ih, hr]; rfl
      simp only [objHasKey, List.any_cons] at this ⊢
      rw [show rest.any (fun p => p.1 == k) = false from this]
      by_cases hk : (k1 == k) = true
      · simp [hk]
      · have : (k1 == k) = false := by simpa using hk
        simp [this]

end ObjLemmas2

section ListDbLemmas

/-- Erasing with a predicate no element satisfies is the identity. -/
theorem erasePOfAnyFalse {α : Type} (p : α → Bool) (l : List α)
    (h : l.any p = false) : l.eraseP p = l := by
  induction l with
  | nil => rfl
  | cons a rest ih =>
    simp only [List.any_cons, Bool.or_eq_false_iff] at h
    simp [List.eraseP_cons, h.1, ih h.2]

/-- Erasing with a predicate some element satisfies removes exactly one. -/
theorem lengthErasePOfAnyTrue {α : Type} (p : α → Bool) (l : List α)
    (h : l.any p = true) : l.length = (l.eraseP p).length + 1 := by
  induction l with
  | nil => simp at h
  | cons a rest ih =>
    by_cases hpa : p a = true
    · simp [List.eraseP_cons, hpa]
    · simp only [Bool.not_eq_true] at hpa
      simp only [List.any_cons, hpa, Bool.false_or] at h
      simp [List.eraseP_cons, hpa, ih h]

/-- Reading a collection just written. -/
theorem dbColl_setColl_self (db : Db) (n : String) (docs : List Obj) :
    dbColl (dbSetColl db n docs) n = docs := by
  simp [dbSetColl, dbColl, List.find?]

/-- Writing one collection leaves reads of other collections unchanged. -/
theorem dbColl_setColl_ne (db : Db) (n n2 : String) (docs : List Obj)
    (h : ¬n2 = n) :
    dbColl (dbSetColl db n docs) n2 = dbColl db n2 := by
  have hne : (n == n2) = false := by
    simp only [beq_eq_false_iff_ne, ne_eq]
    exact fun hh => h hh.symm
  simp only [dbSetColl, dbColl, List.find?, hne]
  induction db with
  | nil => rfl
  | cons c rest ih =>
    obtain ⟨cn, cd⟩ := c
    by_cases hcn : cn = n
    · have hcn1 : (cn == n) = true := by simpa using hcn
      have hcn2 : (cn == n2) = false := by
        simp only [beq_eq_false_iff_ne, ne_eq]
        intro hh
        exact h (hh ▸ hcn)
      simp only [dbRemoveColl, hcn1, if_true, List.find?, hcn2]
      exact ih
    · have hcn1 : (cn == n) = false := by simpa using hcn
      simp only [dbRemoveColl, hcn1, Bool.false_eq_true, if_false, List.find?]
      by_cases hcn2 : (cn == n2) = true
      · simp [hcn2]
      · have : (cn == n2) = false := by simpa using hcn2
        simp only [this, Bool.false_eq_true, if_false]
        exact ih

/-- Extraction from a successful id match: the stored native identifier is
the queried ObjectId. -/
theorem idMatches_eq (d : Obj) (id : String) (h : idMatches d id = true) :
    objGet d "_id" = some (.oid id) := by
  unfold idMatches at h
  cases hg : objGet d "_id" with
  | none => rw [hg] at h; simp at h
  | some v => cases v <;> rw [hg] at h <;> simp_all

end ListDbLemmas

section FoldLemmas

/-- A create-input step never touches keys that are not declared fields. -/
theorem processStep_preserve (t : GraphQLTypeDefinition) (acc : Obj) (kv : String × Val)
    (k : String) (hfind : t.fields.find? (fun f => f.name == k) = none) :
    objGet (SchemaGen.processStep t acc kv) k = objGet acc k := by
  unfold SchemaGen.processStep
  split
  · rfl
  · rename_i f hf
    have hne : ¬kv.1 = k := by
      intro hh
      rw [hh, hfind] at hf
      exact absurd hf (by simp)
    split
    · split
      · exact objGet_snoc_ne acc kv.1 k _ hne
      · split
        · exact objGet_snoc_ne acc kv.1 k _ hne
        · rfl
    · exact objGet_snoc_ne acc kv.1 k _ hne

/-- The create-input reduce never touches keys that are not declared fields. -/
theorem processFold_preserve (t : GraphQLTypeDefinition) (l : List (String × Val))
    (acc : Obj) (k : String)
    (hfind : t.fields.find? (fun f => f.name == k) = none) :
    objGet (l.foldl (SchemaGen.processStep t) acc) k = objGet acc k := by
  induction l generalizing acc with
  | nil => rfl
  | cons kv rest ih =>
    rw [List.foldl_cons, ih, processStep_preserve t acc kv k hfind]

/-- A conversion step leaves lookups of other keys unchanged. -/
theorem convertStep_preserve (converted : Obj) (f : GraphQLField) (k : String)
    (hne : ¬f.name = k) :
    objGet (Part005.convertStep converted f) k = objGet converted k := by
  unfold Part005.convertStep
  split
  · split
    · rfl
    · split
      · split
        · exact objGet_objSet_ne converted f.name k _ (fun hh => hne hh.symm)
        · rfl
      · split
        · exact objGet_objSet_ne converted f.name k _ (fun hh => hne hh.symm)
        · rfl
  · rfl

/-- A conversion step cannot introduce an absent key. -/
theorem convertStep_absent (converted : Obj) (f : GraphQLField) (k : String)
    (h : objGet converted k = none) :
    objGet (Part005.convertStep converted f) k = none := by
  by_cases hne : f.name = k
  · unfold Part005.convertStep
    rw [hne, objHasKey_eq_isSome, h]
    simpa using h
  · rw [convertStep_preserve converted f k hne]
    exact h

/-- convertToObjectIds leaves lookups outside the declared fields unchanged. -/
theorem convertFold_preserve (l : List GraphQLField) :
    ∀ (d : Obj) (k : String), (∀ f ∈ l, ¬f.name = k) →
      objGet (l.foldl Part005.convertStep d) k = objGet d k := by
  induction l with
  | nil => intro d k h; rfl
  | cons f rest ih =>
    intro d k h
    rw [List.foldl_cons,
      ih (Part005.convertStep d f) k (fun g hg => h g (List.mem_cons_of_mem f hg))]
    exact convertStep_preserve d f k (h f (List.mem_cons_self f rest))

/-- convertToObjectIds cannot introduce an absent key. -/
theorem convertFold_absent (l : List GraphQLField) :
    ∀ (d : Obj) (k : String), objGet d k = none →
      objGet (l.foldl Part005.convertStep d) k = none := by
  induction l with
  | nil => intro d k h; exact h
  | cons f rest ih =>
    intro d k h
    rw [List.foldl_cons]
    exact ih (Part005.convertStep d f) k (convertStep_absent d f k h)

section FoldLemmas2

/-- A population step either leaves the document unchanged or assigns the
field key in place. -/
theorem populateOne_shape (db : Db) (populated : Obj) (f : GraphQLField) :
    Part005.populateOne db populated f = populated ∨
      ∃ w, Part005.populateOne db populated f = objSet populated f.name w := by
  unfold Part005.populateOne
  dsimp only
  repeat' split
  all_goals first
    | exact Or.inl rfl
    | exact Or.inr ⟨_, rfl⟩

/-- A population step leaves lookups of other keys unchanged. -/
theorem populateOne_preserve (db : Db) (populated : Obj) (f : GraphQLField)
    (k : String) (hne : ¬f.name = k) :
    objGet (Part005.populateOne db populated f) k = objGet populated k := by
  rcases populateOne_shape db populated f with hs | ⟨w, hs⟩
  · rw [hs]
  · rw [hs]
    exact objGet_objSet_ne populated f.name k w (fun hh => hne hh.symm)

/-- A population step cannot introduce an absent key. -/
theorem populateOne_absent (db : Db) (populated : Obj) (f : GraphQLField)
    (k : String) (h : objGet populated k = none) :
    objGet (Part005.populateOne db populated f) k = none := by
  by_cases hne : f.name = k
  · unfold Part005.populateOne
    rw [hne, objHasKey_eq_isSome, h]
    simpa using h
  · rw [populateOne_preserve db populated f k hne]
    exact h

/-- populateReferences leaves lookups outside the declared fields unchanged. -/
theorem populateFold_preserve (l : List GraphQLField) (db : Db) :
    ∀ (d : Obj) (k : String), (∀ f ∈ l, ¬f.name = k) →
      objGet (l.foldl (Part005.populateOne db) d) k = objGet d k := by
  induction l with
  | nil => intro d k _; rfl
  | cons f rest ih =>
    intro d k h
    rw [List.foldl_cons,
      ih (Part005.populateOne db d f) k (fun g hg => h g (List.mem_cons_of_mem f hg))]
    exact populateOne_preserve db d f k (h f (List.mem_cons_self f rest))

/-- populateReferences cannot introduce an absent key. -/
theorem populateFold_absent (l : List GraphQLField) (db : Db) :
    ∀ (d : Obj) (k : String), objGet d k = none →
      objGet (l.foldl (Part005.populateOne db) d) k = none := by
  induction l with
  | nil => intro d k h; exact h
  | cons f rest ih =>
    intro d k h
    rw [List.foldl_cons]
    exact ih (Part005.populateOne db d f) k (populateOne_absent db d f k h)

/-- One `$set` entry leaves lookups of other keys unchanged. -/
theorem applySetStep_preserve (d : Obj) (kv : String × Val) (k : String)
    (hne : ¬kv.1 = k) :
    objGet (Part005.applySetStep d kv) k = objGet d k := by
  unfold Part005.applySetStep objSetOrAdd
  split
  · exact objGet_objSet_ne d kv.1 k kv.2 (fun hh => hne hh.symm)
  · exact objGet_snoc_ne d kv.1 k kv.2 hne

/-- Applying a `$set` whose update document lacks a key leaves that key
unchanged. -/
theorem applySet_preserve (updates : Obj) :
    ∀ (d : Obj) (k : String), objGet updates k = none →
      objGet (Part005.applySet d updates) k = objGet d k := by
  induction updates with
  | nil => intro d k _; rfl
  | cons kv rest ih =>
    intro d k h
    obtain ⟨kk, vv⟩ := kv
    obtain ⟨hrest, hk⟩ := objGet_cons_none kk vv rest k h
    unfold Part005.applySet at ih ⊢
    rw [List.foldl_cons, ih (Part005.applySetStep d (kk, vv)) k hrest]
    exact applySetStep_preserve d (kk, vv) k (by simpa using hk)

end FoldLemmas2

section StringAuthzLemmas

/-- Replacing a pattern that does not occur leaves the text unchanged,
whatever the fuel. -/
theorem replaceChars_of_not_occurs (pat rep s : List Char) :
    ∀ (fuel : Nat), occursIn pat s = false → replaceChars pat rep fuel s = s := by
  induction s with
  | nil => intro fuel _; cases fuel <;> rfl
  | cons c rest ih =>
    intro fuel h
    have hsplit : listLeadEq pat (c :: rest) = false ∧ occursIn pat rest = false := by
      simpa [occursIn, Bool.or_eq_false_iff] using h
    cases fuel with
    | zero => rfl
    | succ n =>
      rw [replaceChars]
      simp [hsplit.1, ih n hsplit.2]

/-- String form of the no-occurrence replacement identity. -/
theorem jsReplaceAll_of_not_occurs (s pat rep : String)
    (h : strOccurs pat s = false) : jsReplaceAll s pat rep = s := by
  unfold jsReplaceAll
  rw [replaceChars_of_not_occurs pat.data rep.data s.data s.data.length h]

/-- Lookup in interpolated conditions is the interpolation of the lookup. -/
theorem objGet_interpolateFields (u : Obj) (o : List (String × Val)) (k : String) :
    objGet (Authz.interpolateFields u o) k = (objGet o k).map (Authz.interpolateVal u) := by
  induction o with
  | nil => rfl
  | cons p rest ih =>
    obtain ⟨k1, v⟩ := p
    rw [show Authz.interpolateFields u ((k1, v) :: rest) =
      (k1, Authz.interpolateVal u v) :: Authz.interpolateFields u rest from by
        rw [Authz.interpolateFields]]
    cases hr : objGet rest k with
    | some w =>
      rw [objGet_cons_some k1 (Authz.interpolateVal u v) (Authz.interpolateFields u rest) k
        (Authz.interpolateVal u w) (by rw [ih, hr]; rfl)]
      rw [objGet_cons_some k1 v rest k w hr]
      rfl
    | none =>
      rw [objGet_cons_of_none k1 (Authz.interpolateVal u v) (Authz.interpolateFields u rest) k
        (by rw [ih, hr]; rfl)]
      rw [objGet_cons_of_none k1 v rest k hr]
      by_cases hk : (k1 == k) = true
      · simp [hk]
      · have : (k1 == k) = false := by simpa using hk
        simp [this]

/-- Membership through priority insertion. -/
theorem mem_insertByPriority (r x : Authz.AuthorizationRule)
    (l : List Authz.AuthorizationRule) :
    x ∈ Authz.insertByPriority r l ↔ x = r ∨ x ∈ l := by
  induction l with
  | nil => simp [Authz.insertByPriority]
  | cons a rest ih =>
    rw [Authz.insertByPriority]
    split
    · simp [List.mem_cons]
    · simp only [List.mem_cons, ih]
      tauto

/-- Membership through the priority sort. -/
theorem mem_sortByPriorityDesc (x : Authz.AuthorizationRule)
    (l : List Authz.AuthorizationRule) :
    x ∈ Authz.sortByPriorityDesc l ↔ x ∈ l := by
  induction l with
  | nil => simp [Authz.sortByPriorityDesc]
  | cons a rest ih =>
    rw [show Authz.sortByPriorityDesc (a :: rest) =
      Authz.insertByPriority a (Authz.sortByPriorityDesc rest) from rfl]
    rw [mem_insertByPriority]
    simp only [List.mem_cons, ih]

end StringAuthzLemmas

/-- Demo account type carrying a unique field, used to exercise the query
generator and the get resolvers. -/
def c1UserType : GraphQLTypeDefinition :=
  { name := "User",
    fields := [ { name := "name", type := "String", isRequired := true },
                { name := "email", type := "String", unique := true } ] }

/-- C1 counterexample: the claim says get of a type accepts, when no
identifier is given, exactly one argument for a unique-marked field, with a
runtime ValidationError otherwise. On the demo account type, which does
carry a unique field, the generated query surface declares the identifier
as its only, required, argument and declares no argument for the unique
field at all, so the claimed unique-field dispatch does not exist. -/
theorem c1_counterexample :
    c1UserType.fields.any (fun f => f.unique) = true ∧
    strOccurs "email" (SchemaGen.generateQueryType [c1UserType]) = false ∧
    strOccurs "getUser(id: ID!): User" (SchemaGen.generateQueryType [c1UserType]) = true := by
  exact ⟨rfl, rfl, rfl⟩

/-- C1 amended: for a compiled type the generated get query accepts only
the required identifier argument and the get-all query an open JSON
filter; the generated resolvers perform a plain lookup by identifier and
an open filtered find, with no unique-field dispatch and no
ValidationError path. -/
theorem c1_get_requires_identifier_only :
    SchemaGen.generateQueryType [c1UserType] =
      "type Query \x7b\n  \"\"\"Get a single User by ID\"\"\"\n  getUser(id: ID!): User\n\n  \"\"\"Get all Users, optionally filtered\"\"\"\n  getUsers(filter: JSON): [User!]!\n\x7d" ∧
    (∀ (db : Db) (id : String),
      SchemaGen.getResolver c1UserType id db = findOneById (dbColl db "users") id) ∧
    (∀ (db : Db) (flt : Obj),
      SchemaGen.getAllResolver c1UserType flt db =
        (dbColl db "users").filter (mongoMatch (SchemaGen.buildGetAllQuery flt))) := by
  exact ⟨rfl, fun db id => rfl, fun db flt => rfl⟩

/-- Demo type for the convenience-mutation naming claims: a list field
tags on type Post. -/
def c4PostType : GraphQLTypeDefinition :=
  { name := "Post",
    fields := [ { name := "title", type := "String" },
                { name := "tags", type := "Tag", isList := true } ] }

/-- C4 counterexample: the mutation-type generator cited by the claim does
not singularize the field name and names the item parameter itemId, so a
list field tags on type Post compiles to addPostTags(id, itemId), not
addPostTag(id, tagId). -/
theorem c4_counterexample :
    strOccurs "addPostTags(id: ID!, itemId: ID!)" (SchemaGen.generateMutationType [c4PostType]) = true ∧
    strOccurs "tagId" (SchemaGen.generateMutationType [c4PostType]) = false ∧
    strOccurs "addPostTag(id: ID!" (SchemaGen.generateMutationType [c4PostType]) = false := by
  exact ⟨rfl, rfl, rfl⟩

/-- C4 amended: the first-iteration schema generator singularizes a
trailing letter s and names the item parameter with the singular followed
by Id, compiling tags on Post to addPostTag(id, tagId); the
generateMutationType iteration instead capitalizes the field name as-is
and always names the parameter itemId, compiling the same field to
addPostTags(id: ID!, itemId: ID!). -/
theorem c4_convenience_mutation_naming :
    SchemaGenV1.v1ArrayMutations c4PostType =
      "  addPostTag(id: ID!, tagId: ID!): Post\n  removePostTag(id: ID!, tagId: ID!): Post" ∧
    strOccurs "addPostTags(id: ID!, itemId: ID!): Post!" (SchemaGen.generateMutationType [c4PostType]) = true ∧
    strOccurs "removePostTags(id: ID!, itemId: ID!): Post!" (SchemaGen.generateMutationType [c4PostType]) = true := by
  exact ⟨rfl, rfl, rfl⟩

/-- Demo type for the collection-naming claim: a type Post with a unique
field email. -/
def c5DemoType : GraphQLTypeDefinition :=
  { name := "Post",
    fields := [ { name := "email", type := "String", unique := true } ] }

/-- C5: registering the demo type creates its unique index on collection
"post" (the bare lower-cased name), while every compiled CRUD operation
reads and writes collection "posts" (lower-cased with a trailing letter
s), so the index never applies to the data the operations touch. -/
theorem c5_index_and_crud_collections_differ :
    (TypeRegistry.addGraphQLType ⟨[], []⟩ c5DemoType).uniqueIndexes = [("post", "email")] ∧
    SchemaGen.crudCollectionName c5DemoType.name = "posts" ∧
    ("post" : String) ≠ "posts" := by
  refine ⟨rfl, rfl, by decide⟩

/-- C7: the capability set built for a null principal denies every
action/subject pair: no permission check against it can succeed, whatever
the rules, the action, the subject, the resource or the principal object
supplied at check time. -/
theorem c7_null_principal_denies_all (rules : List Authz.AuthorizationRule)
    (action subject : String) (resource user : Option Obj) :
    Authz.checkPermission (Authz.buildDynamicAbilityForUser none rules)
      action subject resource user = false := rfl

/-- C2: a define-type request whose fields include any reserved name fails
before anything is persisted: the registry state (stored types and created
indexes) is returned unchanged and the result is one of the reserved-name
validation errors, never a success. The authenticated-caller hypothesis
reflects that the resolver rejects unauthenticated calls even earlier. -/
theorem c2_reserved_field_rejected (st : TypeRegistry.RegistryState) (u : Option Obj)
    (inp : GraphQLTypeDefinition) (hauth : u.isSome = true)
    (hres : ∃ f ∈ inp.fields, RESERVED_FIELD_NAMES.contains f.name = true) :
    (TypeRegistry.createType st u inp).1 = st ∧
    ∃ msg, (TypeRegistry.createType st u inp).2 = Except.error msg ∧
      (msg = TypeRegistry.reservedFieldError "id" ∨
       msg = TypeRegistry.reservedFieldError "creator" ∨
       msg = TypeRegistry.validationErrorsMsg
         (TypeRegistry.validateFieldReferences inp.fields)) := by
  have hnone : u.isNone = false := by
    cases u with
    | none => simp at hauth
    | some x => rfl
  by_cases hid : (inp.fields.find? (fun f => f.name == "id")).isSome = true
  · refine ⟨?_, TypeRegistry.reservedFieldError "id", ?_, Or.inl rfl⟩
    · simp [TypeRegistry.createType, hnone, hid]
    · simp [TypeRegistry.createType, hnone, hid]
  · by_cases hcr : (inp.fields.find? (fun f => f.name == "creator")).isSome = true
    · refine ⟨?_, TypeRegistry.reservedFieldError "creator", ?_, Or.inr (Or.inl rfl)⟩
      · simp [TypeRegistry.createType, hnone, hid, hcr]
      · simp [TypeRegistry.createType, hnone, hid, hcr]
    · have hlen : 0 < (TypeRegistry.validateFieldReferences inp.fields).length := by
        obtain ⟨f, hf, hfres⟩ := hres
        have hmem : f ∈ inp.fields.filter (fun g => RESERVED_FIELD_NAMES.contains g.name) :=
          List.mem_filter.mpr ⟨hf, hfres⟩
        have hne : inp.fields.filter (fun g => RESERVED_FIELD_NAMES.contains g.name) ≠ [] :=
          List.ne_nil_of_mem hmem
        unfold TypeRegistry.validateFieldReferences TypeRegistry.validateNoReservedFields
        rw [List.length_map]
        exact List.length_pos.mpr hne
      refine ⟨?_,
        TypeRegistry.validationErrorsMsg (TypeRegistry.validateFieldReferences inp.fields),
        ?_, Or.inr (Or.inr rfl)⟩
      · simp [TypeRegistry.createType, hnone, hid, hcr, hlen]
      · simp [TypeRegistry.createType, hnone, hid, hcr, hlen]

/-- Demo define-type input using the reserved field name createdAt. -/
def c2DemoInput : GraphQLTypeDefinition :=
  { name := "Bad", fields := [ { name := "createdAt", type := "Date" } ] }

/-- Witness for C2 at a concrete registry state and input. -/
theorem c2_witness :
    (TypeRegistry.createType ⟨[], []⟩ (some []) c2DemoInput).1 = (⟨[], []⟩ : TypeRegistry.RegistryState) ∧
    ∃ msg, (TypeRegistry.createType ⟨[], []⟩ (some []) c2DemoInput).2 = Except.error msg ∧
      (msg = TypeRegistry.reservedFieldError "id" ∨
       msg = TypeRegistry.reservedFieldError "creator" ∨
       msg = TypeRegistry.validationErrorsMsg
         (TypeRegistry.validateFieldReferences c2DemoInput.fields)) :=
  c2_reserved_field_rejected ⟨[], []⟩ (some []) c2DemoInput rfl
    ⟨{ name := "createdAt", type := "Date" }, by simp [c2DemoInput], by rfl⟩

/-- C6: for a coarse-granted update, delete or manage request on the
account-type subject User, with a concrete resource and principal both
supplied, the permission check returns true exactly when the identifier
resolved from the resource (its native identifier, falling back to its id
attribute) equals the identifier resolved the same way from the
principal. -/
theorem c6_account_ownership_check (ability : List Authz.AbilityReg) (action : String)
    (r u : Obj)
    (hact : action = "update" ∨ action = "delete" ∨ action = "manage")
    (hcoarse : Authz.coarseCan ability action "User" = true) :
    (Authz.checkPermission ability action "User" (some r) (some u) = true ↔
      Authz.resolveId r = Authz.resolveId u) := by
  unfold Authz.checkPermission
  rcases hact with h | h | h <;> subst h <;>
    simp [hcoarse, beq_iff_eq]

/-- The single rule of the C6 example: update User conditioned on the
principal identifier template. -/
def c6DemoRule : Authz.AuthorizationRule :=
  { name := "user-update-self", action := "update", subject := "User",
    conditions := [("id", .str "$\x7bprincipal.id\x7d")], priority := 100, isActive := true }

/-- The example principal U1. -/
def c6PrincipalU1 : Obj := [("id", .str "U1")]

/-- The example principal U2. -/
def c6PrincipalU2 : Obj := [("id", .str "U2")]

/-- The example resource with identifier U1. -/
def c6Resource : Obj := [("id", .str "U1")]

/-- The capability set built from the single example rule for U1. -/
def c6Ability : List Authz.AbilityReg :=
  Authz.buildDynamicAbilityForUser (some c6PrincipalU1) [c6DemoRule]

/-- Witness for C6 at the example of the claim: update User on resource
with id U1 passes for principal U1 and fails for principal U2. -/
theorem c6_witness :
    Authz.checkPermission c6Ability "update" "User" (some c6Resource) (some c6PrincipalU1) = true ∧
    Authz.checkPermission c6Ability "update" "User" (some c6Resource) (some c6PrincipalU2) = false := by
  constructor
  · exact (c6_account_ownership_check c6Ability "update" c6Resource c6PrincipalU1
      (Or.inl rfl) rfl).mpr rfl
  · have h := c6_account_ownership_check c6Ability "update" c6Resource c6PrincipalU2
      (Or.inl rfl) rfl
    have hne : ¬Authz.resolveId c6Resource = Authz.resolveId c6PrincipalU2 := by decide
    exact Bool.eq_false_iff.mpr (fun hb => hne (h.mp hb))

/-- C8: for an authenticated caller, the generated delete resolver never
raises: it returns a boolean that is true exactly when one document was
removed from the collection, and on an identifier matching no document it
returns false and leaves every collection unchanged. -/
theorem c8_delete_true_iff_one_removed (t : GraphQLTypeDefinition) (u : Option Obj)
    (id : String) (db : Db) (hu : u.isSome = true) :
    ∃ db2 b, SchemaGen.deleteResolver t u id db = Except.ok (db2, b) ∧
      (b = true ↔
        (dbColl db (SchemaGen.crudCollectionName t.name)).length =
          (dbColl db2 (SchemaGen.crudCollectionName t.name)).length + 1) ∧
      ((dbColl db (SchemaGen.crudCollectionName t.name)).any (fun d => idMatches d id) = false →
        b = false ∧ ∀ n, dbColl db2 n = dbColl db n) := by
  obtain ⟨v, rfl⟩ : ∃ v, u = some v := by
    cases u with
    | none => simp at hu
    | some v => exact ⟨v, rfl⟩
  refine ⟨_, _, rfl, ?_, ?_⟩
  · rw [dbColl_setColl_self]
    cases hany : (dbColl db (SchemaGen.crudCollectionName t.name)).any (fun d => idMatches d id) with
    | true =>
      have hlen := lengthErasePOfAnyTrue (fun d => idMatches d id)
        (dbColl db (SchemaGen.crudCollectionName t.name)) hany
      constructor
      · intro _; exact hlen
      · intro _
        have hone : (dbColl db (SchemaGen.crudCollectionName t.name)).length -
            ((dbColl db (SchemaGen.crudCollectionName t.name)).eraseP
              (fun d => idMatches d id)).length = 1 := by omega
        simp [hone]
    | false =>
      have hrem := erasePOfAnyFalse (fun d => idMatches d id)
        (dbColl db (SchemaGen.crudCollectionName t.name)) hany
      rw [hrem]
      constructor
      · intro h2; simp at h2
      · intro h2; omega
  · intro hany
    have hrem := erasePOfAnyFalse (fun d => idMatches d id)
      (dbColl db (SchemaGen.crudCollectionName t.name)) hany
    constructor
    · rw [hrem]; simp
    · intro n
      by_cases hn : n = SchemaGen.crudCollectionName t.name
      · subst hn
        rw [dbColl_setColl_self, hrem]
      · exact dbColl_setColl_ne db _ n _ hn

/-- Demo type and store for the delete witness. -/
def c8DemoType : GraphQLTypeDefinition :=
  { name := "Post", fields := [ { name := "title", type := "String" } ] }

/-- Demo store holding two posts. -/
def c8DemoDb : Db :=
  [("posts", [[("_id", Val.oid "p1")], [("_id", Val.oid "p2")]])]

/-- Witness for C8 at a concrete authenticated delete. -/
theorem c8_witness :
    ∃ db2 b, SchemaGen.deleteResolver c8DemoType (some []) "p1" c8DemoDb = Except.ok (db2, b) ∧
      (b = true ↔
        (dbColl c8DemoDb (SchemaGen.crudCollectionName c8DemoType.name)).length =
          (dbColl db2 (SchemaGen.crudCollectionName c8DemoType.name)).length + 1) ∧
      ((dbColl c8DemoDb (SchemaGen.crudCollectionName c8DemoType.name)).any
          (fun d => idMatches d "p1") = false →
        b = false ∧ ∀ n, dbColl db2 n = dbColl c8DemoDb n) :=
  c8_delete_true_iff_one_removed c8DemoType (some []) "p1" c8DemoDb rfl

/-- C10: building the capability set for a non-null principal registers,
for every active rule whose condition value is the tenant template (or the
identifier template) when the referenced principal attribute is absent, a
condition whose value is the literal string undefined — the coercion of
the undefined replacement argument — rather than an absent or null
condition. -/
theorem c10_absent_attribute_becomes_undefined_string
    (rules : List Authz.AuthorizationRule) (r : Authz.AuthorizationRule)
    (u : Obj) (key : String)
    (hmem : r ∈ rules) (hact : r.isActive = true)
    (hcase :
      (objGet r.conditions key = some (.str Authz.appIdTemplate) ∧
        objGet u "currentAppId" = none) ∨
      (objGet r.conditions key = some (.str Authz.idTemplate) ∧
        objGet u "_id" = none)) :
    ∃ reg ∈ Authz.buildDynamicAbilityForUser (some u) rules,
      reg.action = r.action ∧ reg.subject = r.subject ∧ reg.inverted = r.inverted ∧
      objGet reg.conditions key = some (.str "undefined") := by
  have hmem2 : r ∈ Authz.getRules rules := by
    unfold Authz.getRules
    rw [mem_sortByPriorityDesc]
    exact List.mem_filter.mpr ⟨hmem, hact⟩
  refine ⟨⟨r.inverted, r.action, r.subject, Authz.interpolateConditions r.conditions u⟩,
    ?_, rfl, rfl, rfl, ?_⟩
  · exact List.mem_map_of_mem _ hmem2
  · show objGet (Authz.interpolateConditions r.conditions u) key = some (.str "undefined")
    unfold Authz.interpolateConditions
    rw [objGet_interpolateFields]
    rcases hcase with ⟨hcond, habs⟩ | ⟨hcond, habs⟩
    · rw [hcond]
      show some (Authz.interpolateVal u (.str Authz.appIdTemplate)) = some (.str "undefined")
      simp only [Authz.interpolateVal]
      unfold Authz.interpolateValue
      rw [jsReplaceAll_of_not_occurs Authz.appIdTemplate Authz.idTemplate _ (by decide), habs]
      rfl
    · rw [hcond]
      show some (Authz.interpolateVal u (.str Authz.idTemplate)) = some (.str "undefined")
      simp only [Authz.interpolateVal]
      unfold Authz.interpolateValue
      rw [habs]
      rw [show jsReplaceAll Authz.idTemplate Authz.idTemplate (Authz.jsUndefStr none) =
        "undefined" from rfl]
      rw [jsReplaceAll_of_not_occurs "undefined" Authz.appIdTemplate _ (by decide)]

/-- Demo rule whose condition carries the tenant template. -/
def c10DemoRule : Authz.AuthorizationRule :=
  { name := "authenticated-read-all", action := "read", subject := "all",
    conditions := [("appId", .str Authz.appIdTemplate)], priority := 50, isActive := true }

/-- Demo principal lacking the tenant attribute. -/
def c10DemoUser : Obj := [("_id", Val.oid "00000000000000000000aaaa")]

/-- Witness for C10: the built capability set for the demo principal holds
the demo rule with its condition value equal to the string undefined. -/
theorem c10_witness :
    ∃ reg ∈ Authz.buildDynamicAbilityForUser (some c10DemoUser) [c10DemoRule],
      reg.action = c10DemoRule.action ∧ reg.subject = c10DemoRule.subject ∧
      reg.inverted = c10DemoRule.inverted ∧
      objGet reg.conditions "appId" = some (.str "undefined") :=
  c10_absent_attribute_becomes_undefined_string [c10DemoRule] c10DemoRule c10DemoUser
    "appId" (by simp) rfl (Or.inl ⟨rfl, rfl⟩)

/-- Projection of the stored record from a create-resolver result. -/
def storedOfCreate : Except String (Db × Obj) → Obj
  | .ok p => p.2
  | .error _ => []

/-- Projection of the stored record from a createDocument result. -/
def storedOfCreateDoc : Except String (Db × Obj × Obj) → Obj
  | .ok p => p.2.1
  | .error _ => []

/-- Demo authenticated principal. -/
def c3Principal : Obj := [("_id", Val.oid "00000000000000000000aaaa")]

/-- Demo account-type create input that also smuggles creator and
createdAt values. -/
def c3AccountInput : Obj :=
  [("name", .str "alice"), ("creator", .str "attacker"), ("createdAt", .date 999)]

/-- C3 counterexample: the claim says creator is omitted for the account
type and that createdAt/updatedAt always equal the current time. The
compiled create resolver stamps creator even on the account type User, and
the generic createDocument stores a client-supplied createdAt unchanged
and stamps no updatedAt at all. -/
theorem c3_counterexample :
    objGet (storedOfCreate (SchemaGen.createResolver c1UserType (some c3Principal) 5
      c3AccountInput "00000000000000000000bbbb" [])) "creator" =
        some (Val.oid "00000000000000000000aaaa") ∧
    objGet (storedOfCreateDoc (Part005.createDocument "posts"
      [("createdAt", Val.date 999)] (some c3Principal) [] none
      "00000000000000000000cccc")) "createdAt" = some (Val.date 999) ∧
    objGet (storedOfCreateDoc (Part005.createDocument "posts"
      [("createdAt", Val.date 999)] (some c3Principal) [] none
      "00000000000000000000cccc")) "updatedAt" = none := by
  exact ⟨rfl, rfl, rfl⟩

/-- C3 amended: (a) the compiled create resolver succeeds for an
authenticated principal and stamps creator with the principal for every
type — the account type included — stamps createdAt and updatedAt with
the current time, and discards a client-supplied id value, reserved names
never being declared fields; (b) the generic createDocument succeeds,
strips client id and creator and stamps creator with the principal except
for the users collection, but stamps no timestamps: client-supplied
createdAt/updatedAt values are stored as given. -/
theorem c3_create_stamping :
    (∀ (t : GraphQLTypeDefinition) (u input : Obj) (now : Nat) (newId : String) (db : Db),
      (∀ f ∈ t.fields, ¬f.name ∈ RESERVED_FIELD_NAMES) →
      (SchemaGen.createResolver t (some u) now input newId db).isOk = true ∧
      objGet (storedOfCreate (SchemaGen.createResolver t (some u) now input newId db))
          "creator" = some (oidOfVal ((objGet u "_id").getD .undef)) ∧
      objGet (storedOfCreate (SchemaGen.createResolver t (some u) now input newId db))
          "createdAt" = some (.date now) ∧
      objGet (storedOfCreate (SchemaGen.createResolver t (some u) now input newId db))
          "updatedAt" = some (.date now) ∧
      objGet (storedOfCreate (SchemaGen.createResolver t (some u) now input newId db))
          "id" = none) ∧
    (∀ (coll : String) (data u : Obj) (db : Db) (td : GraphQLTypeDefinition) (newId : String),
      (∀ f ∈ td.fields, ¬f.name ∈ RESERVED_FIELD_NAMES) →
      (Part005.createDocument coll data (some u) db (some td) newId).isOk = true ∧
      objGet (storedOfCreateDoc (Part005.createDocument coll data (some u) db (some td) newId))
          "id" = none ∧
      (coll = "users" →
        objGet (storedOfCreateDoc (Part005.createDocument coll data (some u) db (some td) newId))
          "creator" = none) ∧
      (¬coll = "users" →
        objGet (storedOfCreateDoc (Part005.createDocument coll data (some u) db (some td) newId))
          "creator" = some (oidOfVal ((objGet u "_id").getD .undef))) ∧
      objGet (storedOfCreateDoc (Part005.createDocument coll data (some u) db (some td) newId))
          "createdAt" = objGet data "createdAt" ∧
      objGet (storedOfCreateDoc (Part005.createDocument coll data (some u) db (some td) newId))
          "updatedAt" = objGet data "updatedAt") := by
  constructor
  · intro t u input now newId db hfields
    have hfind : t.fields.find? (fun f => f.name == "id") = none := by
      apply List.find?_eq_none.mpr
      intro f hf
      simp only [beq_iff_eq]
      intro hh
      exact hfields f hf (by rw [hh]; decide)
    have hst : storedOfCreate (SchemaGen.createResolver t (some u) now input newId db) =
        (SchemaGen.processCreateInput t input ++
          [("creator", oidOfVal ((objGet u "_id").getD .undef)),
           ("createdAt", .date now), ("updatedAt", .date now)]) ++
          [("_id", Val.oid newId)] := rfl
    refine ⟨rfl, ?_, ?_, ?_, ?_⟩
    · rw [hst, objGet_snoc_ne _ "_id" "creator" _ (by decide)]
      exact objGet_append_right _ _ _ _ rfl
    · rw [hst, objGet_snoc_ne _ "_id" "createdAt" _ (by decide)]
      exact objGet_append_right _ _ _ _ rfl
    · rw [hst, objGet_snoc_ne _ "_id" "updatedAt" _ (by decide)]
      exact objGet_append_right _ _ _ _ rfl
    · rw [hst, objGet_snoc_ne _ "_id" "id" _ (by decide),
        objGet_append_left _ _ _ (by rfl)]
      show objGet (SchemaGen.processCreateInput t input) "id" = none
      unfold SchemaGen.processCreateInput
      rw [processFold_preserve t input [] "id" hfind]
      rfl
  · intro coll data u db td newId hfields
    have hpres : ∀ (k : String) (d : Obj), k ∈ RESERVED_FIELD_NAMES →
        objGet (Part005.convertToObjectIds d td) k = objGet d k := by
      intro k d hk
      unfold Part005.convertToObjectIds
      exact convertFold_preserve td.fields d k
        (fun f hf hh => hfields f hf (hh ▸ hk))
    by_cases hcoll : coll = "users"
    · subst hcoll
      have hst : storedOfCreateDoc
          (Part005.createDocument "users" data (some u) db (some td) newId) =
          Part005.convertToObjectIds (objRemoveKey (objRemoveKey data "id") "creator") td ++
            [("_id", Val.oid newId)] := rfl
      refine ⟨rfl, ?_, ?_, ?_, ?_, ?_⟩
      · rw [hst, objGet_snoc_ne _ "_id" "id" _ (by decide)]
        unfold Part005.convertToObjectIds
        apply convertFold_absent
        rw [objGet_removeKey_ne _ "creator" "id" (by decide),
          objGet_removeKey_self]
      · intro _
        rw [hst, objGet_snoc_ne _ "_id" "creator" _ (by decide)]
        unfold Part005.convertToObjectIds
        apply convertFold_absent
        rw [objGet_removeKey_self]
      · intro hc
        exact absurd rfl hc
      · rw [hst, objGet_snoc_ne _ "_id" "createdAt" _ (by decide),
          hpres "createdAt" _ (by decide),
          objGet_removeKey_ne _ "creator" "createdAt" (by decide),
          objGet_removeKey_ne _ "id" "createdAt" (by decide)]
      · rw [hst, objGet_snoc_ne _ "_id" "updatedAt" _ (by decide),
          hpres "updatedAt" _ (by decide),
          objGet_removeKey_ne _ "creator" "updatedAt" (by decide),
          objGet_removeKey_ne _ "id" "updatedAt" (by decide)]
    · have hcoll2 : (coll == "users") = false := by simpa using hcoll
      have hok : (Part005.createDocument coll data (some u) db (some td) newId).isOk = true := by
        unfold Part005.createDocument
        simp only [hcoll2, Bool.false_eq_true, if_false]
        rfl
      have hst : storedOfCreateDoc
          (Part005.createDocument coll data (some u) db (some td) newId) =
          Part005.convertToObjectIds
            (objRemoveKey (objRemoveKey data "id") "creator" ++
              [("creator", oidOfVal ((objGet u "_id").getD .undef))]) td ++
            [("_id", Val.oid newId)] := by
        unfold Part005.createDocument storedOfCreateDoc
        simp only [hcoll2, Bool.false_eq_true, if_false]
      refine ⟨hok, ?_, ?_, ?_, ?_, ?_⟩
      · rw [hst, objGet_snoc_ne _ "_id" "id" _ (by decide)]
        unfold Part005.convertToObjectIds
        apply convertFold_absent
        rw [objGet_snoc_ne _ "creator" "id" _ (by decide),
          objGet_removeKey_ne _ "creator" "id" (by decide),
          objGet_removeKey_self]
      · intro hc
        exact absurd hc hcoll
      · intro _
        rw [hst, objGet_snoc_ne _ "_id" "creator" _ (by decide),
          hpres "creator" _ (by decide), objGet_snoc_self]
      · rw [hst, objGet_snoc_ne _ "_id" "createdAt" _ (by decide),
          hpres "createdAt" _ (by decide),
          objGet_snoc_ne _ "creator" "createdAt" _ (by decide),
          objGet_removeKey_ne _ "creator" "createdAt" (by decide),
          objGet_removeKey_ne _ "id" "createdAt" (by decide)]
      · rw [hst, objGet_snoc_ne _ "_id" "updatedAt" _ (by decide),
          hpres "updatedAt" _ (by decide),
          objGet_snoc_ne _ "creator" "updatedAt" _ (by decide),
          objGet_removeKey_ne _ "creator" "updatedAt" (by decide),
          objGet_removeKey_ne _ "id" "updatedAt" (by decide)]

/-- Demo declared type with no reserved field names. -/
def c3PostType : GraphQLTypeDefinition :=
  { name := "Post", fields := [ { name := "title", type := "String" } ] }

/-- Witness for C3 at concrete inputs, exercising the compiled resolver on
the account type and the generic createDocument on the posts collection. -/
theorem c3_witness :
    ((SchemaGen.createResolver c1UserType (some c3Principal) 7 c3AccountInput
        "00000000000000000000bbbb" []).isOk = true ∧
      objGet (storedOfCreate (SchemaGen.createResolver c1UserType (some c3Principal) 7
        c3AccountInput "00000000000000000000bbbb" [])) "creator" =
          some (oidOfVal ((objGet c3Principal "_id").getD .undef)) ∧
      objGet (storedOfCreate (SchemaGen.createResolver c1UserType (some c3Principal) 7
        c3AccountInput "00000000000000000000bbbb" [])) "createdAt" = some (.date 7) ∧
      objGet (storedOfCreate (SchemaGen.createResolver c1UserType (some c3Principal) 7
        c3AccountInput "00000000000000000000bbbb" [])) "updatedAt" = some (.date 7) ∧
      objGet (storedOfCreate (SchemaGen.createResolver c1UserType (some c3Principal) 7
        c3AccountInput "00000000000000000000bbbb" [])) "id" = none) ∧
    ((Part005.createDocument "posts" [("createdAt", Val.date 999)] (some c3Principal) []
        (some c3PostType) "00000000000000000000cccc").isOk = true ∧
      objGet (storedOfCreateDoc (Part005.createDocument "posts" [("createdAt", Val.date 999)]
        (some c3Principal) [] (some c3PostType) "00000000000000000000cccc")) "id" = none ∧
      ("posts" = "users" →
        objGet (storedOfCreateDoc (Part005.createDocument "posts" [("createdAt", Val.date 999)]
          (some c3Principal) [] (some c3PostType) "00000000000000000000cccc")) "creator" = none) ∧
      (¬"posts" = "users" →
        objGet (storedOfCreateDoc (Part005.createDocument "posts" [("createdAt", Val.date 999)]
          (some c3Principal) [] (some c3PostType) "00000000000000000000cccc")) "creator" =
            some (oidOfVal ((objGet c3Principal "_id").getD .undef))) ∧
      objGet (storedOfCreateDoc (Part005.createDocument "posts" [("createdAt", Val.date 999)]
        (some c3Principal) [] (some c3PostType) "00000000000000000000cccc")) "createdAt" =
          objGet [("createdAt", Val.date 999)] "createdAt" ∧
      objGet (storedOfCreateDoc (Part005.createDocument "posts" [("createdAt", Val.date 999)]
        (some c3Principal) [] (some c3PostType) "00000000000000000000cccc")) "updatedAt" =
          objGet [("createdAt", Val.date 999)] "updatedAt") :=
  ⟨c3_create_stamping.1 c1UserType c3Principal c3AccountInput 7
      "00000000000000000000bbbb" [] (by decide),
    c3_create_stamping.2 "posts" [("createdAt", Val.date 999)] c3Principal []
      c3PostType "00000000000000000000cccc" (by decide)⟩

/-- Projection of the record from a getDocument result. -/
def recOfGet : Except String (Option Obj) → Option Obj
  | .ok r => r
  | .error _ => none

/-- Projection of the records from a getDocuments result. -/
def recsOfGetAll : Except String (List Obj) → List Obj
  | .ok r => r
  | .error _ => []

/-- Projection of the record from an updateDocument result. -/
def recOfUpdate : Except String (Option Obj × Db) → Option Obj
  | .ok p => p.1
  | .error _ => none

/-- The id-conversion-plus-population step shared by the generic read,
list and update paths keeps the derived id binding and omits the native
key, provided the document carries no literal id binding and no declared
field is named id. -/
theorem convRecordLookup (db : Db) (td : GraphQLTypeDefinition) (d : Obj)
    (hfields : ∀ f ∈ td.fields, ¬f.name = "id")
    (hdid : objGet d "id" = none) :
    objGet (Part005.populateReferences
      ([("id", .str (valIdStr ((objGet d "_id").getD .undef)))] ++ objRemoveKey d "_id")
      td db) "_id" = none ∧
    objGet (Part005.populateReferences
      ([("id", .str (valIdStr ((objGet d "_id").getD .undef)))] ++ objRemoveKey d "_id")
      td db) "id" = some (.str (valIdStr ((objGet d "_id").getD .undef))) := by
  constructor
  · unfold Part005.populateReferences
    apply populateFold_absent
    rw [objGet_append_left _ _ _ (objGet_removeKey_self d "_id")]
    rfl
  · unfold Part005.populateReferences
    rw [populateFold_preserve td.fields db _ "id" hfields]
    rw [objGet_append_left _ _ _
      (by rw [objGet_removeKey_ne d "_id" "id" (by decide)]; exact hdid)]
    rfl

/-- C9: under the system invariants that stored documents carry no literal
id binding, that no declared field is named id, and that update input
carries no native key, every record returned by the generic read, list and
update operations carries an id binding equal to the string form of the
native identifier of the underlying stored document, and the native key
itself is absent from the returned record. -/
theorem c9_returned_records_carry_id (coll id : String) (data : Obj) (u : Option Obj)
    (db : Db) (td : GraphQLTypeDefinition)
    (hu : u.isSome = true)
    (hfields : ∀ f ∈ td.fields, ¬f.name = "id")
    (hstore : ∀ d ∈ dbColl db coll, objGet d "id" = none)
    (hdata : objGet data "_id" = none) :
    (∀ rec, recOfGet (Part005.getDocument coll id u db (some td)) = some rec →
      objGet rec "_id" = none ∧ objGet rec "id" = some (.str id)) ∧
    (∀ rec ∈ recsOfGetAll (Part005.getDocuments coll u db (some td)),
      objGet rec "_id" = none ∧
      ∃ d ∈ dbColl db coll,
        objGet rec "id" = some (.str (valIdStr ((objGet d "_id").getD .undef)))) ∧
    (∀ rec, recOfUpdate (Part005.updateDocument coll id data u db (some td)) = some rec →
      objGet rec "_id" = none ∧ objGet rec "id" = some (.str id)) := by
  obtain ⟨v, rfl⟩ : ∃ v, u = some v := by
    cases u with
    | none => simp at hu
    | some v => exact ⟨v, rfl⟩
  refine ⟨?_, ?_, ?_⟩
  · intro rec h
    cases hfind : findOneById (dbColl db coll) id with
    | none =>
      have hval : recOfGet (Part005.getDocument coll id (some v) db (some td)) = none := by
        unfold Part005.getDocument
        rw [hfind]
        rfl
      rw [hval] at h
      exact absurd h (by simp)
    | some result =>
      have hval : recOfGet (Part005.getDocument coll id (some v) db (some td)) =
          some (Part005.populateReferences
            ([("id", .str (valIdStr ((objGet result "_id").getD .undef)))] ++
              objRemoveKey result "_id") td db) := by
        unfold Part005.getDocument
        rw [hfind]
        rfl
      rw [hval] at h
      unfold findOneById at hfind
      have hrec := (Option.some.inj h).symm
      have hmem := List.mem_of_find?_eq_some hfind
      have hmatch : idMatches result id = true := by
        have hx := List.find?_some hfind
        exact hx
      have hid := idMatches_eq result id hmatch
      have hh := convRecordLookup db td result hfields (hstore result hmem)
      subst hrec
      refine ⟨hh.1, ?_⟩
      rw [hh.2, hid]
      rfl
  · intro rec hrec
    have hval : recsOfGetAll (Part005.getDocuments coll (some v) db (some td)) =
        ((dbColl db coll).map
          (fun doc => [("id", .str (valIdStr ((objGet doc "_id").getD .undef)))] ++
            objRemoveKey doc "_id")).map
          (fun doc => Part005.populateReferences doc td db) := rfl
    rw [hval, List.map_map] at hrec
    obtain ⟨d, hdmem, hrec⟩ := List.mem_map.mp hrec
    have hh := convRecordLookup db td d hfields (hstore d hdmem)
    subst hrec
    exact ⟨hh.1, d, hdmem, hh.2⟩
  · intro rec h
    cases hfind : findOneById (dbColl db coll) id with
    | none =>
      have hval : recOfUpdate (Part005.updateDocument coll id data (some v) db (some td)) =
          none := by
        unfold Part005.updateDocument
        rw [hfind]
        rfl
      rw [hval] at h
      exact absurd h (by simp)
    | some doc =>
      have hfind2 := hfind
      have hmem : doc ∈ dbColl db coll := by
        unfold findOneById at hfind2
        exact List.mem_of_find?_eq_some hfind2
      have hdocid : objGet doc "_id" = some (.oid id) := by
        unfold findOneById at hfind2
        have hmatch : idMatches doc id = true := by
          have hx := List.find?_some hfind2
          exact hx
        exact idMatches_eq doc id hmatch
      have hconvid : objGet (Part005.convertToObjectIds (objRemoveKey data "id") td)
          "id" = none := by
        unfold Part005.convertToObjectIds
        apply convertFold_absent
        exact objGet_removeKey_self data "id"
      have hconvnat : objGet (Part005.convertToObjectIds (objRemoveKey data "id") td)
          "_id" = none := by
        unfold Part005.convertToObjectIds
        apply convertFold_absent
        rw [objGet_removeKey_ne data "id" "_id" (by decide)]
        exact hdata
      have hupdnat : objGet (Part005.applySet doc
          (Part005.convertToObjectIds (objRemoveKey data "id") td)) "_id" =
          some (.oid id) := by
        rw [applySet_preserve _ doc "_id" hconvnat]
        exact hdocid
      have hupdid : objGet (Part005.applySet doc
          (Part005.convertToObjectIds (objRemoveKey data "id") td)) "id" = none := by
        rw [applySet_preserve _ doc "id" hconvid]
        exact hstore doc hmem
      have hval : recOfUpdate (Part005.updateDocument coll id data (some v) db (some td)) =
          some (Part005.populateReferences
            ([("id", .str (valIdStr ((objGet (Part005.applySet doc
                (Part005.convertToObjectIds (objRemoveKey data "id") td)) "_id").getD
                .undef)))] ++
              objRemoveKey (Part005.applySet doc
                (Part005.convertToObjectIds (objRemoveKey data "id") td)) "_id") td db) := by
        unfold Part005.updateDocument
        rw [hfind]
        rfl
      rw [hval] at h
      have hrec := (Option.some.inj h).symm
      have hh := convRecordLookup db td
        (Part005.applySet doc (Part005.convertToObjectIds (objRemoveKey data "id") td))
        hfields hupdid
      subst hrec
      refine ⟨hh.1, ?_⟩
      rw [hh.2, hupdnat]
      rfl

/-- Demo stored collection for the read-path witness. -/
def c9DemoDb : Db := [("posts", [[("_id", Val.oid "p1"), ("title", Val.str "x")]])]

/-- Witness for C9: reading the demo post returns a record carrying id p1
and no native key. -/
theorem c9_witness :
    objGet [("id", Val.str "p1"), ("title", Val.str "x")] "_id" = none ∧
    objGet [("id", Val.str "p1"), ("title", Val.str "x")] "id" = some (.str "p1") :=
  (c9_returned_records_carry_id "posts" "p1" [("title", Val.str "y")] (some [])
      c9DemoDb c3PostType rfl (by decide)
      (fun d hd => by
        have hd2 : d ∈ [[("_id", Val.oid "p1"), ("title", Val.str "x")]] := hd
        rw [List.mem_singleton] at hd2
        subst hd2
        rfl) rfl).1
    [("id", Val.str "p1"), ("title", Val.str "x")] rfl
